import Mathlib

/-!
Verification development for the lidarsystem repository.

The repository has two algorithmic files:
* `dxf_comparison.py` — polygon alignment (`detect_principal_axes`,
  `align_polygons`, `rotate_polygon`, `translate_polygon`) and comparison
  (`compare_floorplans`, `compare_floorplans_detailed`, `calculate_iou`).
* `floor_plan_extractor.py` — wall segmentation (`segment_walls`) and
  rectangle fitting (`create_floor_plan`).

The embedding below translates these functions into Lean.  Polygons are
modelled as their exterior coordinate rings (`List (ℝ × ℝ)`, closed rings
list the first vertex again at the end, exactly the list produced by
`list(polygon.exterior.coords)` in the source).  Python floats are modelled
as real numbers; Python's `%`, `round`, `math.atan2`, `np.degrees` are given
faithful real-valued models (`pymod`, `pyround`, `atan2`, `np_degrees`).
Operations delegated to external geometry libraries (shapely boolean
overlay, Open3D RANSAC / DBSCAN / oriented bounding boxes) enter the
embedding as explicit function parameters ("oracles"): the repository's own
control flow around them is what is verified.
-/

namespace LidarSystem

/-- Python's binary `%` on floats with a positive divisor:
`x % y = x - y * floor (x / y)` (result has the sign of the divisor). -/
noncomputable def pymod (x y : ℝ) : ℝ := x - y * ⌊x / y⌋

/-- Python 3's built-in `round` on floats: nearest integer, ties to even.
At non-ties it agrees with Mathlib's `round` (nearest, ties away from
zero); the tie case is spelled out explicitly. -/
noncomputable def pyround (x : ℝ) : ℤ :=
  if Int.fract x = 1 / 2 then (if Even ⌊x⌋ then ⌊x⌋ else ⌊x⌋ + 1) else round x

/-- `math.atan2 y x` following the C99 convention used by CPython
(signed zeros are not representable in `ℝ`, so `atan2 0 x` for `x < 0`
takes the `y ≥ 0` branch, value `π`). -/
noncomputable def atan2 (y x : ℝ) : ℝ :=
  if 0 < x then Real.arctan (y / x)
  else if x < 0 then
    (if 0 ≤ y then Real.arctan (y / x) + Real.pi else Real.arctan (y / x) - Real.pi)
  else
    (if 0 < y then Real.pi / 2 else if y < 0 then -(Real.pi / 2) else 0)

/-- `numpy.degrees`. -/
noncomputable def np_degrees (x : ℝ) : ℝ := x * (180 / Real.pi)

/-- Python's `min` over a nonempty list (the `[]` case is junk `0`;
CPython raises `ValueError` there, which no verified statement relies on). -/
def listMin : List ℝ → ℝ
  | [] => 0
  | x :: xs => xs.foldl min x

/-- One step of building the Python dict `angle_counts`: increment the
count of key `k`, appending `(k, 1)` if absent.  Association lists keep
dict insertion order, which `max` over `dict.items()` observes. -/
noncomputable def bump : List (ℝ × ℕ) → ℝ → List (ℝ × ℕ)
  | [], k => [(k, 1)]
  | (k', c) :: rest, k =>
      if k' = k then (k', c + 1) :: rest else (k', c) :: bump rest k

/-- Python's `max(items, key=lambda x: x[1])`: the first item of maximal
count in iteration order (replacement only on strictly greater count). -/
def firstMax : List (ℝ × ℕ) → Option (ℝ × ℕ)
  | [] => none
  | x :: xs => some (xs.foldl (fun best y => if best.2 < y.2 then y else best) x)

/-- Error classification.  `valueError` and `runtimeError` are the Python
exception classes the source actually raises; `invalidPolygonError` and
`insufficientGeometryError` are the failure kinds named by the design
document, which lets theorems state that the code never produces them. -/
inductive PyError where
  | valueError
  | runtimeError
  | invalidPolygonError
  | insufficientGeometryError
  deriving DecidableEq, Repr

/-! ## dxf_comparison.py -/

/-- `AXIS_ALIGNMENT_TOLERANCE = 0.1` (radians). -/
noncomputable def AXIS_ALIGNMENT_TOLERANCE : ℝ := 0.1

/-- Fields of the dataclass `ComparisonMetrics`. -/
structure ComparisonMetrics where
  area_reference : ℝ
  area_extracted : ℝ
  area_difference : ℝ
  area_difference_percent : ℝ
  perimeter_reference : ℝ
  perimeter_extracted : ℝ
  perimeter_difference : ℝ
  perimeter_difference_percent : ℝ
  similarity_score : ℝ

/-- Fields of the dataclass `ComparisonResult`. -/
structure ComparisonResult where
  area_difference : ℝ
  perimeter_difference : ℝ
  wall_length_differences : List (ℝ × ℝ)
  angle_differences : List ℝ
  iou_score : ℝ

/-- `LineString([p, q]).length`: Euclidean length of one edge. -/
noncomputable def seg_length (p q : ℝ × ℝ) : ℝ :=
  Real.sqrt ((q.1 - p.1) * (q.1 - p.1) + (q.2 - p.2) * (q.2 - p.2))

/-- The loop of `detect_principal_axes` over `range(len(coords) - 1)`:
for each consecutive vertex pair, skip the edge when its length is below
`0.1`, otherwise record `abs(atan2(dy, dx)) % (pi / 2)`. -/
noncomputable def edge_fold_angles (coords : List (ℝ × ℝ)) : List ℝ :=
  (List.range (coords.length - 1)).filterMap (fun i =>
    let p1 := coords.getD i (0, 0)
    let p2 := coords.getD (i + 1) (0, 0)
    let dx := p2.1 - p1.1
    let dy := p2.2 - p1.2
    let length := Real.sqrt (dx * dx + dy * dy)
    if length < 0.1 then none
    else some (pymod |atan2 dy dx| (Real.pi / 2)))

/-- The dict key `round(angle / AXIS_ALIGNMENT_TOLERANCE) * AXIS_ALIGNMENT_TOLERANCE`. -/
noncomputable def angle_key (angle : ℝ) : ℝ :=
  (pyround (angle / AXIS_ALIGNMENT_TOLERANCE) : ℝ) * AXIS_ALIGNMENT_TOLERANCE

/-- `detect_principal_axes(polygon)` from `dxf_comparison.py` (lines
86–124), taking the polygon's exterior coordinate ring. -/
noncomputable def detect_principal_axes (coords : List (ℝ × ℝ)) : ℝ :=
  let angles := edge_fold_angles coords
  let angle_counts := angles.foldl (fun d a => bump d (angle_key a)) []
  match firstMax angle_counts with
  | some kv => kv.1
  | none => 0

/-- Signed shoelace sum over the closed coordinate ring. -/
noncomputable def shoelace (coords : List (ℝ × ℝ)) : ℝ :=
  ((List.range (coords.length - 1)).map (fun i =>
    let p := coords.getD i (0, 0)
    let q := coords.getD (i + 1) (0, 0)
    p.1 * q.2 - q.1 * p.2)).sum

/-- `polygon.area` (shapely): absolute value of half the shoelace sum. -/
noncomputable def polyArea (coords : List (ℝ × ℝ)) : ℝ := |shoelace coords| / 2

/-- `polygon.length` (shapely): total length of the exterior ring. -/
noncomputable def polyLength (coords : List (ℝ × ℝ)) : ℝ :=
  ((List.range (coords.length - 1)).map (fun i =>
    seg_length (coords.getD i (0, 0)) (coords.getD (i + 1) (0, 0)))).sum

/-- `polygon.centroid` (shapely): area-weighted centroid of the ring.
(GEOS falls back to a length-weighted centroid for zero-area rings; no
verified statement depends on the zero-area value, where this model
yields the junk value `0/0 = 0`.) -/
noncomputable def centroid (coords : List (ℝ × ℝ)) : ℝ × ℝ :=
  let a2 := shoelace coords
  (((List.range (coords.length - 1)).map (fun i =>
      let p := coords.getD i (0, 0)
      let q := coords.getD (i + 1) (0, 0)
      (p.1 + q.1) * (p.1 * q.2 - q.1 * p.2))).sum / (3 * a2),
   ((List.range (coords.length - 1)).map (fun i =>
      let p := coords.getD i (0, 0)
      let q := coords.getD (i + 1) (0, 0)
      (p.2 + q.2) * (p.1 * q.2 - q.1 * p.2))).sum / (3 * a2))

/-- `rotate_polygon(polygon, angle)` (lines 156–176), including the
`if angle == 0: return polygon` early exit. -/
noncomputable def rotate_polygon (coords : List (ℝ × ℝ)) (angle : ℝ) : List (ℝ × ℝ) :=
  if angle = 0 then coords
  else
    let c := centroid coords
    coords.map (fun p =>
      let tx := p.1 - c.1
      let ty := p.2 - c.2
      (tx * Real.cos angle - ty * Real.sin angle + c.1,
       tx * Real.sin angle + ty * Real.cos angle + c.2))

/-- `translate_polygon(polygon, dx, dy)` (lines 178–181). -/
noncomputable def translate_polygon (coords : List (ℝ × ℝ)) (dx dy : ℝ) : List (ℝ × ℝ) :=
  coords.map (fun p => (p.1 + dx, p.2 + dy))

/-- `align_polygons(reference_polygon, extracted_polygon)` (lines 126–154):
rotate the extracted ring by the difference of detected principal axes,
then translate so the centroids coincide.  (The source also computes
`ext_centroid` before rotating but never uses it for the translation;
the translation uses the rotated ring's centroid, as here.) -/
noncomputable def align_polygons (ref ext : List (ℝ × ℝ)) : List (ℝ × ℝ) :=
  let ref_angle := detect_principal_axes ref
  let ext_angle := detect_principal_axes ext
  let rotation_angle := ref_angle - ext_angle
  let rotated := rotate_polygon ext rotation_angle
  let dx := (centroid ref).1 - (centroid rotated).1
  let dy := (centroid ref).2 - (centroid rotated).2
  translate_polygon rotated dx dy

/-- `compare_floorplans(reference_dxf, generated_dxf)` (lines 191–218),
taking the two already-loaded coordinate rings (DXF reading is external
I/O).  Mirrors the source exactly: align, then areas, perimeters,
absolute and guarded percent differences, and the similarity score. -/
noncomputable def compare_floorplans (ref gen : List (ℝ × ℝ)) : ComparisonMetrics :=
  let gen' := align_polygons ref gen
  let area_ref := polyArea ref
  let area_gen := polyArea gen'
  let area_diff := |area_ref - area_gen|
  let area_diff_percent := if 0 < area_ref then area_diff / area_ref * 100 else 0
  let perimeter_reference := polyLength ref
  let perimeter_extracted := polyLength gen'
  let perimeter_difference := |perimeter_reference - perimeter_extracted|
  let perimeter_difference_percent :=
    if 0 < perimeter_reference then perimeter_difference / perimeter_reference * 100 else 0
  let similarity_score := 100 - (area_diff_percent + perimeter_difference_percent) / 2
  { area_reference := area_ref
    area_extracted := area_gen
    area_difference := area_diff
    area_difference_percent := area_diff_percent
    perimeter_reference := perimeter_reference
    perimeter_extracted := perimeter_extracted
    perimeter_difference := perimeter_difference
    perimeter_difference_percent := perimeter_difference_percent
    similarity_score := similarity_score }

/-- Lengths of the consecutive edges of a ring, indexed like the source's
`for i in range(len(coords) - 1)` loops. -/
noncomputable def ring_edge_lengths (coords : List (ℝ × ℝ)) : List ℝ :=
  (List.range (coords.length - 1)).map (fun i =>
    seg_length (coords.getD i (0, 0)) (coords.getD (i + 1) (0, 0)))

/-- The wall-length loop of `compare_floorplans_detailed` (lines 241–252).
For every reference edge the source computes `min_diff` over all candidate
edges but never uses it; the appended pair is `(ref_len, gen_wall.length)`
where `gen_wall` still holds the candidate edge of the *final* inner-loop
iteration, i.e. the last candidate edge.  The dead `min_diff` computation
is kept here to mirror the source. -/
noncomputable def wall_length_differences_of (refC genC : List (ℝ × ℝ)) : List (ℝ × ℝ) :=
  (List.range (refC.length - 1)).map (fun i =>
    let ref_len := seg_length (refC.getD i (0, 0)) (refC.getD (i + 1) (0, 0))
    let min_diff := listMin ((List.range (genC.length - 1)).map (fun j =>
      |ref_len - seg_length (genC.getD j (0, 0)) (genC.getD (j + 1) (0, 0))|))
    (ref_len,
     seg_length (genC.getD (genC.length - 1 - 1) (0, 0))
       (genC.getD (genC.length - 1) (0, 0))))

/-- The turn angle appended for index `i` by the angle loop (lines 259–264):
`np.degrees(np.arctan2(np.cross(v1, v2), np.dot(v1, v2)))` with
`v1 = coords[i+1] - coords[i]` and `v2 = coords[i+2] - coords[i+1]`. -/
noncomputable def turn_angle_deg (p0 p1 p2 : ℝ × ℝ) : ℝ :=
  let v1 := (p1.1 - p0.1, p1.2 - p0.2)
  let v2 := (p2.1 - p1.1, p2.2 - p1.2)
  np_degrees (atan2 (v1.1 * v2.2 - v1.2 * v2.1) (v1.1 * v2.1 + v1.2 * v2.2))

/-- The per-ring angle list built by `for i in range(len(coords) - 2)`:
turn angles at the interior positions `1 … len-2` of the coordinate list
(the ring's first-and-last vertex gets no angle). -/
noncomputable def ring_turn_angles (coords : List (ℝ × ℝ)) : List ℝ :=
  (List.range (coords.length - 2)).map (fun i =>
    turn_angle_deg (coords.getD i (0, 0)) (coords.getD (i + 1) (0, 0))
      (coords.getD (i + 2) (0, 0)))

/-- The angle-difference loop (lines 266–268): for every reference angle,
`min(abs(ref_angle - gen_angle) for gen_angle in gen_angles)`. -/
noncomputable def angle_differences_of (refC genC : List (ℝ × ℝ)) : List ℝ :=
  let gen_angles := ring_turn_angles genC
  (ring_turn_angles refC).map (fun ref_angle =>
    listMin (gen_angles.map (fun gen_angle => |ref_angle - gen_angle|)))

/-- `calculate_iou(poly1, poly2)` (lines 183–189).  The shapely boolean
overlay is external; `ovl p q` supplies `(intersection.area, union.area)`. -/
noncomputable def calculate_iou (ovl : List (ℝ × ℝ) → List (ℝ × ℝ) → ℝ × ℝ)
    (poly1 poly2 : List (ℝ × ℝ)) : ℝ :=
  if poly1 = [] ∨ poly2 = [] then 0
  else
    let a := ovl poly1 poly2
    if 0 < a.2 then a.1 / a.2 else 0

/-- `compare_floorplans_detailed(reference_dxf, generated_dxf)` (lines
220–276), taking the loaded rings (DXF reading is external I/O).  The
source aligns first (line 226, with `gen_poly` rebound to the aligned
ring), only then runs the emptiness check `if not ref_poly or not
gen_poly` and raises `ValueError` (lines 229–230); there is no edge-count
check and no failure kind other than `ValueError`. -/
noncomputable def compare_floorplans_detailed
    (ovl : List (ℝ × ℝ) → List (ℝ × ℝ) → ℝ × ℝ)
    (refC genC : List (ℝ × ℝ)) : Except PyError ComparisonResult :=
  let gen' := align_polygons refC genC
  if refC = [] ∨ gen' = [] then Except.error PyError.valueError
  else Except.ok
    { area_difference := |polyArea refC - polyArea gen'|
      perimeter_difference := |polyLength refC - polyLength gen'|
      wall_length_differences := wall_length_differences_of refC gen'
      angle_differences := angle_differences_of refC gen'
      iou_score := calculate_iou ovl refC gen' }

/-- Formalisation of the specification's words for the per-edge match:
the candidate edge length with minimum absolute difference to `r`
(first such on ties).  Used only to compare the source's behaviour
against the claimed one. -/
noncomputable def closest_candidate_length (r : ℝ) : List ℝ → ℝ
  | [] => 0
  | l :: ls => ls.foldl (fun best x => if |r - x| < |r - best| then x else best) l

/-! ## floor_plan_extractor.py

The segmentation pipeline calls into Open3D (`segment_plane`,
`cluster_dbscan`, `get_oriented_bounding_box`, `select_by_index`) and
shapely (`minimum_rotated_rectangle`).  Points are modelled over `ℚ`
(every comparison the repository itself performs — `abs(c) < 0.2`,
`len >= 30`, `max(extent) >= 0.8` — is exact there), and the library
calls enter as explicit function parameters. -/

/-- 3D point. -/
abbrev Point3 := ℚ × ℚ × ℚ

/-- Plane coefficients `(a, b, c, d)` of `ax + by + cz + d = 0`. -/
structure PlaneModel where
  a : ℚ
  b : ℚ
  c : ℚ
  d : ℚ
  deriving DecidableEq, Repr

/-- `RANSAC_DISTANCE_CANDIDATES = [0.02, 0.05, 0.1, 0.12]`. -/
def RANSAC_DISTANCE_CANDIDATES : List ℚ := [0.02, 0.05, 0.1, 0.12]

/-- `MIN_WALL_LENGTH = 0.8`. -/
def MIN_WALL_LENGTH : ℚ := 0.8

/-- `DBSCAN_MIN_POINTS = 30`. -/
def DBSCAN_MIN_POINTS : ℕ := 30

/-- `NORMAL_TOLERANCE = 0.2`. -/
def NORMAL_TOLERANCE : ℚ := 0.2

/-- Open3D `select_by_index(indices, invert)`: keep the points whose
position is (resp. is not) in the index set, in cloud order. -/
def select_by_index (cloud : List Point3) (idx : List ℕ) (invert : Bool) : List Point3 :=
  (cloud.enum.filter (fun p => if invert then p.1 ∉ idx else p.1 ∈ idx)).map Prod.snd

/-- `numpy` `.max()` over integer labels (`-1` junk for the empty array,
on which numpy raises; DBSCAN labels are nonempty for nonempty clouds). -/
def npMaxInt : List ℤ → ℤ
  | [] => -1
  | x :: xs => xs.foldl max x

/-- `numpy.bincount` over nonnegative values. -/
def bincount (l : List ℕ) : List ℕ :=
  (List.range (l.foldl max 0 + 1)).map (fun v => l.count v)

/-- `numpy.argmax`: index of the first maximal entry. -/
def npArgmax (l : List ℕ) : ℕ :=
  (l.enum.foldl (fun best p => if best.2 < p.2 then p else best) (0, l.headD 0)).1

/-- The accumulating state of the `for _ in range(5)` loop of
`segment_walls` (lines 62–104): `remaining` is `remaining_cloud`, the
other fields are `vertical_wall_points` (as point lists),
`walls_indices` and `wall_models`. -/
structure SegState where
  remaining : List Point3
  walls : List (List Point3)
  indices : List (List ℕ)
  models : List PlaneModel
  deriving DecidableEq

/-- The best-of-thresholds plane search (lines 72–82): for every RANSAC
distance threshold run `segment_plane` (external, supplied as `segp`)
and keep the pair with strictly more inliers.  The Python initialiser is
`best_inliers = []`, `best_model = None`; the dummy model below is only
ever read after the nonemptiness guard, exactly as `None` is in Python. -/
def bestOverThresholds (segp : List Point3 → ℚ → PlaneModel × List ℕ)
    (cloud : List Point3) : PlaneModel × List ℕ :=
  RANSAC_DISTANCE_CANDIDATES.foldl
    (fun best threshold =>
      let r := segp cloud threshold
      if best.2.length < r.2.length then r else best)
    (⟨0, 0, 0, 0⟩, [])

/-- `wall_cloud = remaining_cloud.select_by_index(best_inliers)` (line 89). -/
def roundWallCloud (segp : List Point3 → ℚ → PlaneModel × List ℕ)
    (remaining : List Point3) : List Point3 :=
  select_by_index remaining (bestOverThresholds segp remaining).2 false

/-- `majority_label = np.argmax(np.bincount(labels[labels >= 0]))` (line 93). -/
def majorityLabel (labels : List ℤ) : ℕ :=
  npArgmax (bincount ((labels.filter (fun l => 0 ≤ l)).map Int.toNat))

/-- `main_cluster_indices = np.where(labels == majority_label)[0]` (line 94). -/
def mainClusterIndices (labels : List ℤ) : List ℕ :=
  (labels.enum.filter (fun p => p.2 = (majorityLabel labels : ℤ))).map Prod.fst

/-- The DBSCAN labels of the current round (line 90); the clustering
itself is external (`db`). -/
def roundLabels (segp : List Point3 → ℚ → PlaneModel × List ℕ)
    (db : List Point3 → List ℤ) (remaining : List Point3) : List ℤ :=
  db (roundWallCloud segp remaining)

/-- One round of the `segment_walls` loop (lines 68–104).  `segp` is
Open3D `segment_plane` (per threshold), `db` is `cluster_dbscan`, `obb`
is `max(get_oriented_bounding_box().extent)`.  Returns `none` when the
round `break`s (empty remaining cloud, or no inliers), otherwise the
state after the round; the inlier removal of line 104 is unconditional. -/
def segRound (segp : List Point3 → ℚ → PlaneModel × List ℕ)
    (db : List Point3 → List ℤ) (obb : List Point3 → ℚ)
    (st : SegState) : Option SegState :=
  if st.remaining.length = 0 then none
  else
    let best := bestOverThresholds segp st.remaining
    if best.2.isEmpty then none
    else
      let accepted : SegState :=
        if |best.1.c| < NORMAL_TOLERANCE then
          let wall_cloud := select_by_index st.remaining best.2 false
          let labels := db wall_cloud
          if 0 ≤ npMaxInt labels then
            let main_cluster_indices := mainClusterIndices labels
            let main_cluster := select_by_index wall_cloud main_cluster_indices false
            if DBSCAN_MIN_POINTS ≤ main_cluster_indices.length then
              if MIN_WALL_LENGTH ≤ obb main_cluster then
                { st with
                  walls := st.walls ++ [main_cluster]
                  indices := st.indices ++ [main_cluster_indices]
                  models := st.models ++ [best.1] }
              else st
            else st
          else st
        else st
      some { accepted with remaining := select_by_index st.remaining best.2 true }

/-- The bounded loop `for _ in range(5)`, as fuelled iteration of
`segRound` (a `break` stops the recursion). -/
def segLoop (segp : List Point3 → ℚ → PlaneModel × List ℕ)
    (db : List Point3 → List ℤ) (obb : List Point3 → ℚ) :
    ℕ → SegState → SegState
  | 0, st => st
  | n + 1, st =>
    match segRound segp db obb st with
    | none => st
    | some st' => segLoop segp db obb n st'

/-- Number of rounds actually executed by the fuelled loop. -/
def roundsUsed (segp : List Point3 → ℚ → PlaneModel × List ℕ)
    (db : List Point3 → List ℤ) (obb : List Point3 → ℚ) :
    ℕ → SegState → ℕ
  | 0, _ => 0
  | n + 1, st =>
    match segRound segp db obb st with
    | none => 0
    | some st' => roundsUsed segp db obb n st' + 1

/-- `segment_walls(pcd)` (lines 58–112): run at most 5 rounds, then fail
with `RuntimeError` if no wall was accepted, otherwise return the
accepted points projected to 2D, the per-segment index groups and the
plane models. -/
def segment_walls (segp : List Point3 → ℚ → PlaneModel × List ℕ)
    (db : List Point3 → List ℤ) (obb : List Point3 → ℚ)
    (pcd : List Point3) :
    Except PyError (List (ℚ × ℚ) × List (List ℕ) × List PlaneModel) :=
  let fin := segLoop segp db obb 5 { remaining := pcd, walls := [], indices := [], models := [] }
  if fin.walls.isEmpty then Except.error PyError.runtimeError
  else Except.ok ((fin.walls.flatten).map (fun p => (p.1, p.2.1)), fin.indices, fin.models)

/-- `create_floor_plan(points_xy)` (lines 114–122): reject only the empty
input (with `RuntimeError`), otherwise delegate to shapely's
`minimum_rotated_rectangle` (external, supplied as `mrr`). -/
def create_floor_plan (mrr : List (ℚ × ℚ) → List (ℚ × ℚ))
    (points_xy : List (ℚ × ℚ)) : Except PyError (List (ℚ × ℚ)) :=
  if points_xy.length = 0 then Except.error PyError.runtimeError
  else Except.ok (mrr points_xy)

/-! ## Concrete inputs and oracle instantiations used by the theorems -/

/-- A `segment_plane` oracle whose plane is vertical (`c = 0`) and always
reports the single inlier `0`; used to instantiate round-level theorems. -/
def segpC : List Point3 → ℚ → PlaneModel × List ℕ := fun _ _ => (⟨1, 0, 0, 0⟩, [0])

/-- A `cluster_dbscan` oracle returning the single label `0`. -/
def dbC : List Point3 → List ℤ := fun _ => [0]

/-- An oriented-bounding-box extent oracle reporting a long extent. -/
def obbC : List Point3 → ℚ := fun _ => 10

/-- A one-point starting state for the round-level witnesses. -/
def stC : SegState := ⟨[(0, 0, 0)], [], [], []⟩

/-- A trivial instantiation of the external shapely overlay (its value
is never inspected by any statement below). -/
noncomputable def overlap_zero : List (ℝ × ℝ) → List (ℝ × ℝ) → ℝ × ℝ := fun _ _ => (0, 0)
/-- The unit-square ring used as a concrete reference input. -/
noncomputable def sq_ring : List (ℝ × ℝ) := [(0, 0), (1, 0), (1, 1), (0, 1), (0, 0)]

/-- A 1×5 axis-aligned rectangle ring used as a concrete candidate. -/
noncomputable def rect_ring : List (ℝ × ℝ) := [(0, 0), (1, 0), (1, 5), (0, 5), (0, 0)]
/-- A triangle with two near-vertical edges of slope `±100` and a
horizontal base: its dominant folded edge direction is `arctan 100`,
which bins to `1.6 > π/2`. -/
noncomputable def steep_tri_ring : List (ℝ × ℝ) := [(0, 0), (1, 100), (2, 0), (0, 0)]
/-- A closed ring whose only edge of length `≥ 0.1` is the diagonal
`(0,0) → (0.15, 0.15)`; the three short return hops are all skipped. -/
noncomputable def single_edge_ring : List (ℝ × ℝ) :=
  [(0, 0), (3 / 20, 3 / 20), (1 / 10, 1 / 10), (1 / 20, 1 / 20), (0, 0)]
/-- A one-point "ring", which has no edges at all. -/
noncomputable def single_point_ring : List (ℝ × ℝ) := [(0, 0)]

/-! ## Helper lemmas and concrete instantiations (segmentation side) -/

/-- The fuelled loop executes at most `fuel` rounds. -/
theorem roundsUsed_le (segp : List Point3 → ℚ → PlaneModel × List ℕ)
    (db : List Point3 → List ℤ) (obb : List Point3 → ℚ) :
    ∀ (n : ℕ) (st : SegState), roundsUsed segp db obb n st ≤ n := by
  intro n
  induction n with
  | zero => intro st; simp [roundsUsed]
  | succ m ih =>
    intro st
    rw [roundsUsed]
    cases hr : segRound segp db obb st with
    | none => exact Nat.zero_le _
    | some st' => exact Nat.succ_le_succ (ih st')

/-- C8: in every round of `segment_walls`, *all* RANSAC inliers of the
round's best plane are removed from the remaining point set before the
next round, regardless of acceptance in the verticality, clustering, or
wall-length steps; the loop stops immediately on an empty remaining set
or a round without inliers, and executes at most its fuel (5 in
`segment_walls`) rounds. -/
theorem segment_walls_round_progress_and_bound
    (segp : List Point3 → ℚ → PlaneModel × List ℕ)
    (db : List Point3 → List ℤ) (obb : List Point3 → ℚ) (st : SegState) :
    (st.remaining = [] → segRound segp db obb st = none) ∧
    ((bestOverThresholds segp st.remaining).2 = [] → segRound segp db obb st = none) ∧
    (∀ st', segRound segp db obb st = some st' →
      st'.remaining =
        select_by_index st.remaining (bestOverThresholds segp st.remaining).2 true) ∧
    (∀ (n : ℕ) (st0 : SegState), roundsUsed segp db obb n st0 ≤ n) := by
  refine ⟨?_, ?_, ?_, roundsUsed_le segp db obb⟩
  · intro h
    simp [segRound, h]
  · intro h
    by_cases h0 : st.remaining.length = 0
    · simp [segRound, h0]
    · simp [segRound, h0, h]
  · intro st' h
    simp only [segRound] at h
    split_ifs at h <;>
      (have h2 := Option.some.inj h; subst h2; rfl)

/-- Witness for `segment_walls_round_progress_and_bound`: a concrete
round (oracles `segpC`/`dbC`/`obbC`, state `stC`) whose single inlier is
removed even though the wall was rejected (cluster too small). -/
theorem segment_walls_round_progress_and_bound_witness :
    segRound segpC dbC obbC stC = some ⟨[], [], [], []⟩ ∧
    (⟨[], [], [], []⟩ : SegState).remaining =
      select_by_index stC.remaining (bestOverThresholds segpC stC.remaining).2 true := by
  have hr : segRound segpC dbC obbC stC = some ⟨[], [], [], []⟩ := by
    norm_num [segRound, segpC, dbC, obbC, stC, bestOverThresholds,
      RANSAC_DISTANCE_CANDIDATES, select_by_index, npMaxInt, mainClusterIndices,
      majorityLabel, npArgmax, bincount, NORMAL_TOLERANCE, DBSCAN_MIN_POINTS,
      MIN_WALL_LENGTH, List.enum, List.enumFrom, List.count, List.range_succ]
  exact ⟨hr,
    (segment_walls_round_progress_and_bound segpC dbC obbC stC).2.2.1 _ hr⟩

/-- C10: a round appends a wall segment only when the majority DBSCAN
cluster has at least `DBSCAN_MIN_POINTS` (30) members *and* the
oriented-bounding-box extent meets `MIN_WALL_LENGTH`; in particular a
plane whose majority cluster is smaller is discarded unconditionally —
the oriented-bounding-box oracle is never consulted in a way that can
rescue it. -/
theorem segment_round_small_cluster_rejected
    (segp : List Point3 → ℚ → PlaneModel × List ℕ)
    (db : List Point3 → List ℤ) (obb : List Point3 → ℚ) (st st' : SegState)
    (h : segRound segp db obb st = some st') :
    (st'.walls ≠ st.walls →
      DBSCAN_MIN_POINTS ≤ (mainClusterIndices (roundLabels segp db st.remaining)).length ∧
      MIN_WALL_LENGTH ≤ obb (select_by_index (roundWallCloud segp st.remaining)
        (mainClusterIndices (roundLabels segp db st.remaining)) false)) ∧
    ((mainClusterIndices (roundLabels segp db st.remaining)).length < DBSCAN_MIN_POINTS →
      st'.walls = st.walls ∧ st'.indices = st.indices ∧ st'.models = st.models) := by
  simp only [segRound] at h
  rw [roundLabels, roundWallCloud]
  split_ifs at h with h1 h2 hv hmax hbig hlen <;>
    (have h0 := Option.some.inj h
     subst h0
     first
       | exact ⟨fun _ => ⟨hbig, hlen⟩, fun hsmall => absurd hbig (by omega)⟩
       | exact ⟨fun hne => absurd rfl hne, fun _ => ⟨rfl, rfl, rfl⟩⟩)

/-- Witness for `segment_round_small_cluster_rejected`: with oracles
`segpC`/`dbC`/`obbC` the majority cluster has a single member (< 30)
while the reported extent is `10 ≥ 0.8`, and the round appends nothing. -/
theorem segment_round_small_cluster_rejected_witness :
    segRound segpC dbC obbC stC = some ⟨[], [], [], []⟩ ∧
    (mainClusterIndices (roundLabels segpC dbC stC.remaining)).length < DBSCAN_MIN_POINTS ∧
    (⟨[], [], [], []⟩ : SegState).walls = stC.walls := by
  have hr : segRound segpC dbC obbC stC = some ⟨[], [], [], []⟩ := by
    norm_num [segRound, segpC, dbC, obbC, stC, bestOverThresholds,
      RANSAC_DISTANCE_CANDIDATES, select_by_index, npMaxInt, mainClusterIndices,
      majorityLabel, npArgmax, bincount, NORMAL_TOLERANCE, DBSCAN_MIN_POINTS,
      MIN_WALL_LENGTH, List.enum, List.enumFrom, List.count, List.range_succ]
  have hsmall :
      (mainClusterIndices (roundLabels segpC dbC stC.remaining)).length < DBSCAN_MIN_POINTS := by
    norm_num [roundLabels, roundWallCloud, segpC, dbC, stC, bestOverThresholds,
      RANSAC_DISTANCE_CANDIDATES, select_by_index, mainClusterIndices, majorityLabel,
      npArgmax, bincount, DBSCAN_MIN_POINTS, List.enum, List.enumFrom, List.count,
      List.range_succ]
  exact ⟨hr, hsmall,
    ((segment_round_small_cluster_rejected segpC dbC obbC stC _ hr).2 hsmall).1⟩

/-- C3 counterexample: `create_floor_plan` does not reject a two-point
input — it returns the delegated rectangle computation's result instead
of failing with the claimed `InsufficientGeometryError` (only the empty
input is rejected, and with `RuntimeError`).  Since the claimed failure
is independent of the external rectangle routine, instantiating it with
`id` suffices. -/
theorem create_floor_plan_two_points_counterexample :
    [((0 : ℚ), 0), (1, 1)].length = 2 ∧
    create_floor_plan id [((0 : ℚ), 0), (1, 1)] = Except.ok [((0 : ℚ), 0), (1, 1)] ∧
    create_floor_plan id [((0 : ℚ), 0), (1, 1)] ≠
      Except.error PyError.insufficientGeometryError := by
  refine ⟨rfl, ?_, ?_⟩ <;> simp [create_floor_plan]

/-- C3 amended: `create_floor_plan` fails (with `RuntimeError`) exactly
on the empty input; every nonempty input — even one with fewer than 3
points — is passed to the external minimum-rotated-rectangle routine,
and `InsufficientGeometryError` is never produced. -/
theorem create_floor_plan_characterization
    (mrr : List (ℚ × ℚ) → List (ℚ × ℚ)) (points_xy : List (ℚ × ℚ)) :
    create_floor_plan mrr points_xy =
      (if points_xy = [] then Except.error PyError.runtimeError
       else Except.ok (mrr points_xy)) ∧
    create_floor_plan mrr points_xy ≠ Except.error PyError.insufficientGeometryError := by
  cases points_xy <;> simp [create_floor_plan]

/-! ## Helper lemmas (alignment and comparison side) -/

/-- Translating by `(0, 0)` is the identity on the coordinate list. -/
theorem translate_polygon_zero (l : List (ℝ × ℝ)) : translate_polygon l 0 0 = l := by
  simp [translate_polygon]

/-- `rotate_polygon` takes its `angle == 0` early exit. -/
theorem rotate_polygon_zero (l : List (ℝ × ℝ)) : rotate_polygon l 0 = l := by
  simp [rotate_polygon]

/-- Aligning a ring to itself is the identity: the detected axes cancel,
so the rotation is skipped, and the centroid translation is `(0, 0)`. -/
theorem align_polygons_self (l : List (ℝ × ℝ)) : align_polygons l l = l := by
  simp only [align_polygons, sub_self, rotate_polygon_zero, translate_polygon_zero]

/-- Alignment preserves the number of vertices. -/
theorem align_polygons_length (ref ext : List (ℝ × ℝ)) :
    (align_polygons ref ext).length = ext.length := by
  simp only [align_polygons, translate_polygon, rotate_polygon]
  split_ifs <;> simp

/-- C7: `compare_floorplans` computes percent differences relative to the
reference value with `0` when that reference value is not positive, its
similarity score is exactly `100` minus the mean of the two percent
differences (no clamping), and comparing a ring with itself yields zero
differences and similarity `100`. -/
theorem compare_floorplans_percent_and_self_similarity (ref gen : List (ℝ × ℝ)) :
    (compare_floorplans ref gen).area_difference_percent =
      (if 0 < polyArea ref then
        |polyArea ref - polyArea (align_polygons ref gen)| / polyArea ref * 100 else 0) ∧
    (compare_floorplans ref gen).perimeter_difference_percent =
      (if 0 < polyLength ref then
        |polyLength ref - polyLength (align_polygons ref gen)| / polyLength ref * 100 else 0) ∧
    (compare_floorplans ref gen).similarity_score =
      100 - ((compare_floorplans ref gen).area_difference_percent +
             (compare_floorplans ref gen).perimeter_difference_percent) / 2 ∧
    (compare_floorplans ref ref).area_difference = 0 ∧
    (compare_floorplans ref ref).perimeter_difference = 0 ∧
    (compare_floorplans ref ref).similarity_score = 100 := by
  refine ⟨rfl, rfl, rfl, ?_, ?_, ?_⟩ <;>
    simp [compare_floorplans, align_polygons_self, sub_self, abs_zero, zero_div,
      zero_mul, ite_self]

/-- Aligning the empty candidate ring yields the empty ring: rotation
and translation are maps over the empty coordinate list. -/
theorem align_polygons_nil_right (ref : List (ℝ × ℝ)) : align_polygons ref [] = [] := by
  simp [align_polygons, rotate_polygon, translate_polygon]

/-- C2 counterexample: calling the comparators with an empty candidate
ring — the specification's own violating scenario — produces no
`InvalidPolygonError`: `compare_floorplans` performs no validation at
all and returns a full metrics record, while
`compare_floorplans_detailed` raises the generic `ValueError`, and only
after the alignment step has been executed on the rings. -/
theorem compare_floorplans_no_validation_counterexample :
    compare_floorplans sq_ring [] =
      { area_reference := 1, area_extracted := 0, area_difference := 1,
        area_difference_percent := 100, perimeter_reference := 4, perimeter_extracted := 0,
        perimeter_difference := 4, perimeter_difference_percent := 100,
        similarity_score := 0 } ∧
    compare_floorplans_detailed overlap_zero sq_ring [] = Except.error PyError.valueError ∧
    PyError.valueError ≠ PyError.invalidPolygonError := by
  have harea : polyArea sq_ring = 1 := by
    norm_num [polyArea, shoelace, sq_ring, List.range_succ]
  have hperim : polyLength sq_ring = 4 := by
    norm_num [polyLength, sq_ring, seg_length, List.range_succ, Real.sqrt_one]
  have hnil_area : polyArea ([] : List (ℝ × ℝ)) = 0 := by
    norm_num [polyArea, shoelace]
  have hnil_perim : polyLength ([] : List (ℝ × ℝ)) = 0 := by
    norm_num [polyLength]
  refine ⟨?_, ?_, by simp⟩
  · norm_num [compare_floorplans, align_polygons_nil_right, harea, hperim, hnil_area,
      hnil_perim]
  · simp [compare_floorplans_detailed, align_polygons_nil_right]

/-- C2 amended: `compare_floorplans_detailed` fails exactly when the
reference ring or the candidate ring is empty, with the generic
`ValueError` of line 230 — and the check runs on the *aligned* candidate,
i.e. after the alignment computation; the design document's
`InvalidPolygonError` is never produced, and no ≥3-edge precondition is
enforced by either entry point. -/
theorem compare_floorplans_detailed_error_characterization
    (ovl : List (ℝ × ℝ) → List (ℝ × ℝ) → ℝ × ℝ) (refC genC : List (ℝ × ℝ)) :
    (compare_floorplans_detailed ovl refC genC = Except.error PyError.valueError ↔
      (refC = [] ∨ genC = [])) ∧
    compare_floorplans_detailed ovl refC genC ≠ Except.error PyError.invalidPolygonError := by
  have hlen : align_polygons refC genC = [] ↔ genC = [] := by
    rw [← List.length_eq_zero, ← List.length_eq_zero, align_polygons_length]
  have hiff : (refC = [] ∨ align_polygons refC genC = []) ↔ (refC = [] ∨ genC = []) :=
    or_congr Iff.rfl hlen
  constructor
  · simp only [compare_floorplans_detailed]
    split_ifs with hc
    · exact iff_of_true rfl (hiff.mp hc)
    · exact iff_of_false (by simp) (fun hd => hc (hiff.mpr hd))
  · simp only [compare_floorplans_detailed]
    split_ifs with hc <;> simp

/-- C1 (code bug): on the unit square vs. the 1×5 rectangle, every
recorded pair is `(1, 5)` — the second component is always the *last*
candidate edge's length (the source computes `min_diff` but never uses
it; `gen_wall` retains the final inner-loop value) — whereas the closest
candidate edge to a reference edge of length `1` has length `1 ≠ 5`. -/
theorem compare_detailed_records_last_candidate_edge :
    wall_length_differences_of sq_ring rect_ring = [(1, 5), (1, 5), (1, 5), (1, 5)] ∧
    ring_edge_lengths rect_ring = [1, 5, 1, 5] ∧
    closest_candidate_length 1 (ring_edge_lengths rect_ring) = 1 ∧
    (5 : ℝ) ≠ 1 := by
  have s25 : Real.sqrt 25 = 5 := by
    rw [show (25 : ℝ) = 5 ^ 2 by norm_num, Real.sqrt_sq (by norm_num : (0 : ℝ) ≤ 5)]
  have hre : ring_edge_lengths rect_ring = [1, 5, 1, 5] := by
    norm_num [ring_edge_lengths, rect_ring, seg_length, List.range_succ, Real.sqrt_one, s25]
  refine ⟨?_, hre, ?_, by norm_num⟩
  · norm_num [wall_length_differences_of, sq_ring, rect_ring, seg_length, List.range_succ,
      Real.sqrt_one, s25]
  · rw [hre]
    norm_num [closest_candidate_length]

/-- `List.foldl min` stays among the seed and the elements. -/
theorem foldl_min_mem (xs : List ℝ) : ∀ a : ℝ, xs.foldl min a ∈ a :: xs := by
  induction xs with
  | nil => intro a; simp
  | cons x xs ih =>
    intro a
    simp only [List.foldl_cons]
    rcases List.mem_cons.mp (ih (min a x)) with h1 | h1
    · rcases min_choice a x with hm | hm
      · exact List.mem_cons.mpr (Or.inl (h1.trans hm))
      · exact List.mem_cons_of_mem _ (List.mem_cons.mpr (Or.inl (h1.trans hm)))
    · exact List.mem_cons_of_mem _ (List.mem_cons_of_mem _ h1)

/-- `List.foldl min` is below its seed. -/
theorem foldl_min_le_init (xs : List ℝ) : ∀ a : ℝ, xs.foldl min a ≤ a := by
  induction xs with
  | nil => intro a; simp
  | cons x xs ih =>
    intro a
    simp only [List.foldl_cons]
    exact le_trans (ih (min a x)) (min_le_left a x)

/-- `List.foldl min` is below every element. -/
theorem foldl_min_le (xs : List ℝ) : ∀ (a x : ℝ), x ∈ xs → xs.foldl min a ≤ x := by
  induction xs with
  | nil => intro a x hx; simp at hx
  | cons y ys ih =>
    intro a x hx
    simp only [List.foldl_cons]
    rcases List.mem_cons.mp hx with rfl | h1
    · exact le_trans (foldl_min_le_init ys (min a x)) (min_le_right a x)
    · exact ih (min a y) x h1

/-- `listMin` of a nonempty list is one of its elements. -/
theorem listMin_mem {l : List ℝ} (h : l ≠ []) : listMin l ∈ l := by
  cases l with
  | nil => exact absurd rfl h
  | cons x xs => exact foldl_min_mem xs x

/-- `listMin` is a lower bound of the list. -/
theorem listMin_le {l : List ℝ} {x : ℝ} (h : x ∈ l) : listMin l ≤ x := by
  cases l with
  | nil => simp at h
  | cons y ys =>
    rcases List.mem_cons.mp h with rfl | h1
    · exact foldl_min_le_init ys x
    · exact foldl_min_le ys y x h1

/-- `getD` through `map` at an in-range index. -/
theorem getD_map_of_lt {α β : Type} (l : List α) (f : α → β) (i : ℕ)
    (h : i < l.length) (d : β) (d' : α) : (l.map f).getD i d = f (l.getD i d') := by
  rw [List.getD_eq_getElem?_getD, List.getD_eq_getElem?_getD, List.getElem?_map]
  rw [List.getElem?_eq_getElem h]
  simp

/-- C4 counterexample: on the unit-square ring (4 distinct vertices, 5
ring coordinates) the angle loop produces only 3 angles — the turn at
the ring's first-and-last vertex is never computed, so the angle list
does *not* cover every vertex of the closed ring. -/
theorem angle_differences_skip_first_vertex_counterexample :
    (angle_differences_of sq_ring sq_ring).length = 3 ∧ sq_ring.length - 1 = 4 := by
  constructor
  · simp [angle_differences_of, ring_turn_angles, sq_ring]
  · rfl

/-- C4 amended: `compare_floorplans_detailed` computes turn angles (via
cross/dot `atan2`, in degrees) at every vertex *except* each ring's
start/end vertex — `len(coords) - 2` of them — and for every such
reference angle the recorded difference is exactly the minimum absolute
difference to the candidate angles: it is one of the pairwise absolute
differences and is below all of them. -/
theorem angle_differences_characterization (refC genC : List (ℝ × ℝ)) (i : ℕ)
    (hg : ring_turn_angles genC ≠ []) (hi : i < (ring_turn_angles refC).length) :
    (angle_differences_of refC genC).length = refC.length - 2 ∧
    (angle_differences_of refC genC).getD i 0 ∈
      (ring_turn_angles genC).map (fun g => |(ring_turn_angles refC).getD i 0 - g|) ∧
    (∀ g ∈ ring_turn_angles genC,
      (angle_differences_of refC genC).getD i 0 ≤
        |(ring_turn_angles refC).getD i 0 - g|) := by
  have hlen : (angle_differences_of refC genC).length = refC.length - 2 := by
    simp [angle_differences_of, ring_turn_angles]
  have hgd : (angle_differences_of refC genC).getD i 0 =
      listMin ((ring_turn_angles genC).map
        (fun g => |(ring_turn_angles refC).getD i 0 - g|)) := by
    simp only [angle_differences_of]
    rw [getD_map_of_lt _ _ _ hi 0 0]
  refine ⟨hlen, ?_, ?_⟩
  · rw [hgd]
    apply listMin_mem
    simpa using hg
  · intro g hgmem
    rw [hgd]
    exact listMin_le (List.mem_map_of_mem _ hgmem)

/-- Witness for `angle_differences_characterization` at the unit square
against itself, index 0. -/
theorem angle_differences_characterization_witness :
    (ring_turn_angles sq_ring ≠ [] ∧ 0 < (ring_turn_angles sq_ring).length) ∧
    ((angle_differences_of sq_ring sq_ring).length = sq_ring.length - 2 ∧
     (angle_differences_of sq_ring sq_ring).getD 0 0 ∈
       (ring_turn_angles sq_ring).map
         (fun g => |(ring_turn_angles sq_ring).getD 0 0 - g|) ∧
     (∀ g ∈ ring_turn_angles sq_ring,
       (angle_differences_of sq_ring sq_ring).getD 0 0 ≤
         |(ring_turn_angles sq_ring).getD 0 0 - g|)) := by
  have hl : (ring_turn_angles sq_ring).length = 3 := by
    simp [ring_turn_angles, sq_ring]
  have h1 : ring_turn_angles sq_ring ≠ [] := by
    intro hnil
    rw [hnil] at hl
    simp at hl
  have h2 : 0 < (ring_turn_angles sq_ring).length := by
    rw [hl]
    norm_num
  exact ⟨⟨h1, h2⟩, angle_differences_characterization sq_ring sq_ring 0 h1 h2⟩

/-! ## Arithmetic helper lemmas for `pymod`, `pyround` and the axis bins -/

/-- `%` with a positive divisor leaves a value in `[0, y)` alone. -/
theorem pymod_eq_self {x y : ℝ} (h0 : 0 ≤ x) (hxy : x < y) : pymod x y = x := by
  have hy : 0 < y := lt_of_le_of_lt h0 hxy
  have hfl : ⌊x / y⌋ = 0 := by
    rw [Int.floor_eq_zero_iff, Set.mem_Ico]
    exact ⟨div_nonneg h0 hy.le, (div_lt_one hy).mpr hxy⟩
  simp [pymod, hfl]

/-- `%` with a positive divisor is nonnegative. -/
theorem pymod_nonneg {x y : ℝ} (hy : 0 < y) : 0 ≤ pymod x y := by
  have h1 : (⌊x / y⌋ : ℝ) ≤ x / y := Int.floor_le _
  have h2 : y * (⌊x / y⌋ : ℝ) ≤ y * (x / y) := mul_le_mul_of_nonneg_left h1 hy.le
  have h3 : y * (x / y) = x := by field_simp
  rw [pymod]
  linarith

/-- `%` with a positive divisor is below the divisor. -/
theorem pymod_lt {x y : ℝ} (hy : 0 < y) : pymod x y < y := by
  have h1 : x / y < ⌊x / y⌋ + 1 := Int.lt_floor_add_one _
  have h2 : x < ((⌊x / y⌋ : ℝ) + 1) * y := (div_lt_iff hy).mp h1
  rw [pymod]
  nlinarith

/-- Python's `round` on a value strictly inside `(n - 1/2, n + 1/2)` is
`n` (no tie can occur there). -/
theorem pyround_window {x : ℝ} {n : ℤ} (h1 : (n : ℝ) - 1 / 2 < x) (h2 : x < n + 1 / 2) :
    pyround x = n := by
  have hfr : Int.fract x ≠ 1 / 2 := by
    intro hf
    have hx : x = (⌊x⌋ : ℝ) + 1 / 2 := by
      have h := Int.self_sub_floor x
      rw [hf] at h
      linarith
    have ha : (n : ℝ) - 1 < (⌊x⌋ : ℝ) := by linarith
    have hb : ((⌊x⌋ : ℝ)) < n := by linarith
    have hab1 : n - 1 < ⌊x⌋ := by exact_mod_cast ha
    have hab2 : ⌊x⌋ < n := by exact_mod_cast hb
    omega
  rw [pyround, if_neg hfr, round_eq, Int.floor_eq_iff]
  constructor <;> push_cast <;> linarith

/-- Python's `round` of a nonnegative value is nonnegative. -/
theorem pyround_nonneg {x : ℝ} (h : 0 ≤ x) : 0 ≤ pyround x := by
  rw [pyround]
  split_ifs with hf he
  · exact Int.floor_nonneg.mpr h
  · have := Int.floor_nonneg.mpr h
    omega
  · rw [round_eq]
    apply Int.floor_nonneg.mpr
    linarith

/-- Python's `round` never exceeds its argument by more than `1/2`. -/
theorem pyround_le_half (x : ℝ) : (pyround x : ℝ) ≤ x + 1 / 2 := by
  rw [pyround]
  split_ifs with hf he
  · push_cast
    linarith [Int.floor_le x]
  · have h := Int.self_sub_floor x
    rw [hf] at h
    push_cast
    linarith
  · have h2 := abs_le.mp (abs_sub_round x)
    push_cast
    linarith [h2.1]

/-- Keys of `bump l k` are keys of `l` or `k` itself. -/
theorem bump_keys (k : ℝ) : ∀ (l : List (ℝ × ℕ)) (p : ℝ × ℕ), p ∈ bump l k →
    p.1 ∈ l.map Prod.fst ∨ p.1 = k := by
  intro l
  induction l with
  | nil =>
    intro p hp
    simp only [bump, List.mem_singleton] at hp
    right
    rw [hp]
  | cons q rest ih =>
    intro p hp
    obtain ⟨k', c⟩ := q
    simp only [bump] at hp
    split_ifs at hp with hq
    · rcases List.mem_cons.mp hp with rfl | h1
      · left; simp
      · left
        simp only [List.map_cons, List.mem_cons]
        right
        exact List.mem_map_of_mem Prod.fst h1
    · rcases List.mem_cons.mp hp with rfl | h1
      · left; simp
      · rcases ih p h1 with h2 | h2
        · left
          simp only [List.map_cons, List.mem_cons]
          right
          exact h2
        · right
          exact h2

/-- Keys of the accumulated `angle_counts` dict all come from the binned
angles. -/
theorem foldl_bump_keys (keyf : ℝ → ℝ) : ∀ (angles : List ℝ) (init : List (ℝ × ℕ))
    (p : ℝ × ℕ), p ∈ angles.foldl (fun d a => bump d (keyf a)) init →
    p.1 ∈ init.map Prod.fst ∨ ∃ a ∈ angles, p.1 = keyf a := by
  intro angles
  induction angles with
  | nil =>
    intro init p hp
    left
    exact List.mem_map_of_mem _ hp
  | cons a as ih =>
    intro init p hp
    simp only [List.foldl_cons] at hp
    rcases ih (bump init (keyf a)) p hp with h1 | h1
    · rcases List.mem_map.mp h1 with ⟨q, hq, hq1⟩
      rcases bump_keys (keyf a) init q hq with h2 | h2
      · left
        rw [← hq1]
        exact h2
      · right
        exact ⟨a, List.mem_cons_self a as, by rw [← hq1]; exact h2⟩
    · right
      obtain ⟨b, hb, hbe⟩ := h1
      exact ⟨b, List.mem_cons_of_mem a hb, hbe⟩

/-- The running first-maximum stays among the seed and the elements. -/
theorem foldl_choose_mem (xs : List (ℝ × ℕ)) :
    ∀ x : ℝ × ℕ, xs.foldl (fun best y => if best.2 < y.2 then y else best) x ∈ x :: xs := by
  induction xs with
  | nil => intro x; simp
  | cons y ys ih =>
    intro x
    simp only [List.foldl_cons]
    by_cases hc : x.2 < y.2
    · rw [if_pos hc]
      exact List.mem_cons_of_mem _ (ih y)
    · rw [if_neg hc]
      rcases List.mem_cons.mp (ih x) with h1 | h1
      · exact List.mem_cons.mpr (Or.inl h1)
      · exact List.mem_cons_of_mem _ (List.mem_cons_of_mem _ h1)

/-- `firstMax` returns an element of the list. -/
theorem firstMax_mem {l : List (ℝ × ℕ)} {p : ℝ × ℕ} (h : firstMax l = some p) : p ∈ l := by
  cases l with
  | nil => simp [firstMax] at h
  | cons x xs =>
    simp only [firstMax, Option.some.injEq] at h
    rw [← h]
    exact foldl_choose_mem xs x

/-- Every folded edge angle lies in `[0, π/2)`. -/
theorem edge_fold_angles_bounds {coords : List (ℝ × ℝ)} {a : ℝ}
    (ha : a ∈ edge_fold_angles coords) : 0 ≤ a ∧ a < Real.pi / 2 := by
  simp only [edge_fold_angles, List.mem_filterMap, List.mem_range] at ha
  obtain ⟨i, _, hi⟩ := ha
  split_ifs at hi
  have := Option.some.inj hi
  rw [← this]
  have hpi : 0 < Real.pi / 2 := by positivity
  exact ⟨pymod_nonneg hpi, pymod_lt hpi⟩

/-- Without qualifying edges the detector returns its `0.0` default. -/
theorem detect_principal_axes_zero_of_no_qualifying {coords : List (ℝ × ℝ)}
    (h : edge_fold_angles coords = []) : detect_principal_axes coords = 0 := by
  simp [detect_principal_axes, h, firstMax]

/-- C5 amended: the detector's return value is always a bin *center*
`k · 0.1` (`k ∈ ℕ`), hence nonnegative, and strictly below
`π/2 + 0.05` — but *not* always below `π/2`: folded angles close to
`π/2` round up to the bin center `1.6 > π/2`.  With no qualifying edge
the `0.0` default is returned. -/
theorem detect_principal_axes_bin_center_range (coords : List (ℝ × ℝ)) :
    (∃ k : ℕ, detect_principal_axes coords = (k : ℝ) * AXIS_ALIGNMENT_TOLERANCE) ∧
    0 ≤ detect_principal_axes coords ∧
    detect_principal_axes coords < Real.pi / 2 + AXIS_ALIGNMENT_TOLERANCE / 2 ∧
    (edge_fold_angles coords = [] → detect_principal_axes coords = 0) := by
  have htol : AXIS_ALIGNMENT_TOLERANCE = 1 / 10 := by norm_num [AXIS_ALIGNMENT_TOLERANCE]
  have hpi2 : 0 < Real.pi / 2 := by positivity
  rcases hfm : firstMax ((edge_fold_angles coords).foldl (fun d a => bump d (angle_key a)) [])
    with _ | p
  · have hdpa : detect_principal_axes coords = 0 := by
      simp [detect_principal_axes, hfm]
    exact ⟨⟨0, by rw [hdpa]; simp⟩, by rw [hdpa], by rw [hdpa]; positivity, fun _ => hdpa⟩
  · have hdpa : detect_principal_axes coords = p.1 := by
      simp [detect_principal_axes, hfm]
    have hp : p ∈ (edge_fold_angles coords).foldl (fun d a => bump d (angle_key a)) [] :=
      firstMax_mem hfm
    have hkey := foldl_bump_keys angle_key (edge_fold_angles coords) [] p hp
    simp only [List.map_nil, List.not_mem_nil, false_or] at hkey
    obtain ⟨a, ha, hpa⟩ := hkey
    obtain ⟨ha0, halt⟩ := edge_fold_angles_bounds ha
    have hq0 : 0 ≤ a / AXIS_ALIGNMENT_TOLERANCE := by
      rw [htol]
      positivity
    have hr0 : (0 : ℝ) ≤ (pyround (a / AXIS_ALIGNMENT_TOLERANCE) : ℝ) := by
      exact_mod_cast pyround_nonneg hq0
    have hkval : detect_principal_axes coords =
        (pyround (a / AXIS_ALIGNMENT_TOLERANCE) : ℝ) * AXIS_ALIGNMENT_TOLERANCE := by
      rw [hdpa, hpa, angle_key]
    refine ⟨⟨(pyround (a / AXIS_ALIGNMENT_TOLERANCE)).toNat, ?_⟩, ?_, ?_, ?_⟩
    · rw [hkval]
      congr 1
      exact_mod_cast (Int.toNat_of_nonneg (pyround_nonneg hq0)).symm
    · rw [hkval]
      apply mul_nonneg hr0
      rw [htol]
      norm_num
    · rw [hkval]
      have hle := pyround_le_half (a / AXIS_ALIGNMENT_TOLERANCE)
      rw [htol] at hle ⊢
      linarith
    · intro hnil
      rw [hnil] at ha
      exact absurd ha (List.not_mem_nil a)

/-- Witness for `detect_principal_axes_bin_center_range` at the empty
coordinate list, which has no qualifying edge. -/
theorem detect_principal_axes_bin_center_range_witness :
    edge_fold_angles ([] : List (ℝ × ℝ)) = [] ∧
    detect_principal_axes ([] : List (ℝ × ℝ)) = 0 := by
  have h : edge_fold_angles ([] : List (ℝ × ℝ)) = [] := by
    simp [edge_fold_angles]
  exact ⟨h, (detect_principal_axes_bin_center_range []).2.2.2 h⟩

/-- Numeric bounds for `arctan 100`, the folded angle of a near-vertical
edge: it lies strictly between `1.56` and `π/2`. -/
theorem arctan_hundred_bounds : 1.56 < Real.arctan 100 ∧ Real.arctan 100 < Real.pi / 2 := by
  constructor
  · have h0 : (0 : ℝ) < Real.arctan (1 / 100) := by
      rw [← Real.arctan_zero]
      exact Real.arctan_strictMono (by norm_num)
    have hinv : Real.arctan (1 / 100) < 1 / 100 := by
      have hlt : Real.arctan (1 / 100) < Real.tan (Real.arctan (1 / 100)) :=
        Real.lt_tan h0 (Real.arctan_lt_pi_div_two _)
      rwa [Real.tan_arctan] at hlt
    have hid : Real.arctan (1 / 100) = Real.pi / 2 - Real.arctan 100 := by
      have h := Real.arctan_inv_of_pos (show (0 : ℝ) < 100 by norm_num)
      rw [show ((100 : ℝ))⁻¹ = 1 / 100 by norm_num] at h
      exact h
    have hpi : 3.141592 < Real.pi := Real.pi_gt_d6
    rw [hid] at hinv
    linarith
  · exact Real.arctan_lt_pi_div_two 100

/-- An edge-length test `√v < 0.1` is exactly `v < 0.01`. -/
theorem sqrt_lt_point_one_iff (v : ℝ) : Real.sqrt v < 0.1 ↔ v < 0.01 := by
  rw [Real.sqrt_lt' (by norm_num : (0 : ℝ) < 0.1)]
  norm_num

/-- Folded angle of the steep edge `(0,0) → (1,100)`. -/
theorem pymod_atan2_100 : pymod |atan2 100 1| (Real.pi / 2) = Real.arctan 100 := by
  obtain ⟨hlo, hhi⟩ := arctan_hundred_bounds
  have h1 : atan2 100 1 = Real.arctan 100 := by
    norm_num [atan2]
  rw [h1, abs_of_pos (by linarith), pymod_eq_self (by linarith) hhi]

/-- Folded angle of the steep edge `(1,100) → (2,0)`. -/
theorem pymod_atan2_neg100 : pymod |atan2 (-100) 1| (Real.pi / 2) = Real.arctan 100 := by
  obtain ⟨hlo, hhi⟩ := arctan_hundred_bounds
  have h1 : atan2 (-100) 1 = -Real.arctan 100 := by
    norm_num [atan2, Real.arctan_neg]
  rw [h1, abs_neg, abs_of_pos (by linarith), pymod_eq_self (by linarith) hhi]

/-- Folded angle of the horizontal return edge `(2,0) → (0,0)`:
`atan2` yields `π`, which folds to `0`. -/
theorem pymod_atan2_pi : pymod |atan2 0 (-2)| (Real.pi / 2) = 0 := by
  have h1 : atan2 0 (-2) = Real.pi := by
    norm_num [atan2, Real.arctan_zero]
  rw [h1, abs_of_pos Real.pi_pos, pymod]
  have h2 : Real.pi / (Real.pi / 2) = 2 := by
    rw [div_div_eq_mul_div, mul_comm]
    rw [mul_div_assoc, div_self Real.pi_ne_zero, mul_one]
  rw [h2, show ((2 : ℝ)) = ((2 : ℤ) : ℝ) by norm_num, Int.floor_intCast]
  push_cast
  ring

/-- The bin key of the folded angle `arctan 100`: it rounds *up* past
`π/2`, to the bin center `1.6`. -/
theorem angle_key_arctan_100 : angle_key (Real.arctan 100) = 8 / 5 := by
  obtain ⟨hlo, hhi⟩ := arctan_hundred_bounds
  have hpi : Real.pi < 3.141593 := Real.pi_lt_d6
  have htol : AXIS_ALIGNMENT_TOLERANCE = 1 / 10 := by norm_num [AXIS_ALIGNMENT_TOLERANCE]
  have harg : Real.arctan 100 / AXIS_ALIGNMENT_TOLERANCE = 10 * Real.arctan 100 := by
    rw [htol]
    ring
  have hround : pyround (Real.arctan 100 / AXIS_ALIGNMENT_TOLERANCE) = 16 := by
    rw [harg]
    apply pyround_window <;> push_cast <;> linarith
  rw [angle_key, hround, htol]
  norm_num

/-- The bin key of the folded angle `0`. -/
theorem angle_key_zero : angle_key 0 = 0 := by
  have h : pyround ((0 : ℝ) / AXIS_ALIGNMENT_TOLERANCE) = 0 := by
    rw [zero_div]
    apply pyround_window <;> push_cast <;> norm_num
  rw [angle_key, zero_div] at *
  rw [h]
  norm_num

/-- The qualifying folded angles of `steep_tri_ring`. -/
theorem edge_fold_angles_steep :
    edge_fold_angles steep_tri_ring = [Real.arctan 100, Real.arctan 100, 0] := by
  unfold edge_fold_angles
  rw [show steep_tri_ring.length - 1 = 3 from rfl, show List.range 3 = [0, 1, 2] from rfl]
  simp only [steep_tri_ring, List.filterMap_cons, List.filterMap_nil, List.getD_cons_zero,
    List.getD_cons_succ, sqrt_lt_point_one_iff]
  norm_num [pymod_atan2_100, pymod_atan2_neg100, pymod_atan2_pi]

/-- C5 counterexample: on `steep_tri_ring` the detector returns `8/5 =
1.6`, which is *not* in `[0, π/2)` — the claimed range is violated
because binning by `round(angle/0.1)*0.1` can exceed `π/2`. -/
theorem detect_principal_axes_exceeds_quarter_turn_counterexample :
    detect_principal_axes steep_tri_ring = 8 / 5 ∧ Real.pi / 2 < 8 / 5 := by
  have hpi : Real.pi < 3.141593 := Real.pi_lt_d6
  constructor
  · norm_num [detect_principal_axes, edge_fold_angles_steep, angle_key_arctan_100,
      angle_key_zero, bump, firstMax]
  · linarith

/-- The bin key of the folded angle `π/4`. -/
theorem angle_key_pi_div_four : angle_key (Real.pi / 4) = 4 / 5 := by
  have hlo : 3.141592 < Real.pi := Real.pi_gt_d6
  have hhi : Real.pi < 3.141593 := Real.pi_lt_d6
  have htol : AXIS_ALIGNMENT_TOLERANCE = 1 / 10 := by norm_num [AXIS_ALIGNMENT_TOLERANCE]
  have harg : Real.pi / 4 / AXIS_ALIGNMENT_TOLERANCE = 10 * Real.pi / 4 := by
    rw [htol]
    ring
  have hround : pyround (Real.pi / 4 / AXIS_ALIGNMENT_TOLERANCE) = 8 := by
    rw [harg]
    apply pyround_window <;> push_cast <;> linarith
  rw [angle_key, hround, htol]
  norm_num

/-- Folded angle of the diagonal edge `(0,0) → (3/20, 3/20)`. -/
theorem pymod_atan2_diag :
    pymod |atan2 (3 / 20) (3 / 20)| (Real.pi / 2) = Real.pi / 4 := by
  have hpi : 0 < Real.pi := Real.pi_pos
  have h1 : atan2 (3 / 20) (3 / 20) = Real.pi / 4 := by
    norm_num [atan2, Real.arctan_one]
  rw [h1, abs_of_pos (by positivity), pymod_eq_self (by positivity) (by linarith)]

/-- C6 counterexample: `single_edge_ring` has exactly *one* qualifying
edge (fewer than 2), yet the detected axis is `4/5 = 0.8 ≠ 0`: the
detector only defaults to `0` when *no* edge qualifies. -/
theorem single_qualifying_edge_nonzero_axis_counterexample :
    (edge_fold_angles single_edge_ring).length = 1 ∧
    detect_principal_axes single_edge_ring = 4 / 5 ∧ ((4 : ℝ) / 5 ≠ 0) := by
  have hef : edge_fold_angles single_edge_ring = [Real.pi / 4] := by
    unfold edge_fold_angles
    rw [show single_edge_ring.length - 1 = 4 from rfl,
      show List.range 4 = [0, 1, 2, 3] from rfl]
    simp only [single_edge_ring, List.filterMap_cons, List.filterMap_nil,
      List.getD_cons_zero, List.getD_cons_succ, sqrt_lt_point_one_iff]
    norm_num [pymod_atan2_diag]
  refine ⟨by rw [hef]; rfl, ?_, by norm_num⟩
  norm_num [detect_principal_axes, hef, angle_key_pi_div_four, bump, firstMax]

/-- C6 amended: the rotation contribution of a polygon's axis detection
is `0` exactly when the polygon has *no* qualifying edge (not "fewer
than 2"); when both rings have none, the alignment degrades to a pure
centroid translation of the candidate. -/
theorem align_translation_only_of_no_qualifying_edges (refC extC : List (ℝ × ℝ))
    (href : edge_fold_angles refC = []) (hext : edge_fold_angles extC = []) :
    align_polygons refC extC =
      translate_polygon extC ((centroid refC).1 - (centroid extC).1)
        ((centroid refC).2 - (centroid extC).2) := by
  have h1 : detect_principal_axes refC = 0 :=
    detect_principal_axes_zero_of_no_qualifying href
  have h2 : detect_principal_axes extC = 0 :=
    detect_principal_axes_zero_of_no_qualifying hext
  simp only [align_polygons, h1, h2, sub_self, rotate_polygon_zero]

/-- Witness for `align_translation_only_of_no_qualifying_edges` on the
edgeless one-point ring. -/
theorem align_translation_only_of_no_qualifying_edges_witness :
    edge_fold_angles single_point_ring = [] ∧
    align_polygons single_point_ring single_point_ring =
      translate_polygon single_point_ring
        ((centroid single_point_ring).1 - (centroid single_point_ring).1)
        ((centroid single_point_ring).2 - (centroid single_point_ring).2) := by
  have h : edge_fold_angles single_point_ring = [] := by
    simp [edge_fold_angles, single_point_ring]
  exact ⟨h, align_translation_only_of_no_qualifying_edges _ _ h h⟩

end LidarSystem
